import Mathlib

/-!
Verification development for the task-management backend.

The definitions below are a shallow embedding of the program under
`src/`: Python functions become Lean functions, raised exceptions become
`Except` error values, machine floats used for epoch timestamps become
rationals, and the in-memory / Redis data structures become explicit
state values.  Each definition carries a comment pointing to the source
location it embeds.
-/

/- ===================================================================
   Part 1: the md5 primitive (`hashlib.md5(...).hexdigest()`), used by
   `src/services/cache.py` line 145.  This is the standard RFC 1321
   algorithm over a byte list, with 32-bit words modelled as `Nat`
   values kept below 2^32.
   =================================================================== -/

namespace Md5

def mask32 : Nat := 4294967296

def add32 (a b : Nat) : Nat := (a + b) % mask32

/-- Left-rotation of a 32-bit word (the argument is below 2^32). -/
def rotl32 (x s : Nat) : Nat := ((x <<< s) % mask32) + (x >>> (32 - s))

def not32 (x : Nat) : Nat := x ^^^ 4294967295

/-- The 64 round constants of RFC 1321 (floor(2^32 * abs(sin(i+1)))). -/
def kTable : List Nat :=
  [0xd76aa478, 0xe8c7b756, 0x242070db, 0xc1bdceee,
   0xf57c0faf, 0x4787c62a, 0xa8304613, 0xfd469501,
   0x698098d8, 0x8b44f7af, 0xffff5bb1, 0x895cd7be,
   0x6b901122, 0xfd987193, 0xa679438e, 0x49b40821,
   0xf61e2562, 0xc040b340, 0x265e5a51, 0xe9b6c7aa,
   0xd62f105d, 0x02441453, 0xd8a1e681, 0xe7d3fbc8,
   0x21e1cde6, 0xc33707d6, 0xf4d50d87, 0x455a14ed,
   0xa9e3e905, 0xfcefa3f8, 0x676f02d9, 0x8d2a4c8a,
   0xfffa3942, 0x8771f681, 0x6d9d6122, 0xfde5380c,
   0xa4beea44, 0x4bdecfa9, 0xf6bb4b60, 0xbebfbc70,
   0x289b7ec6, 0xeaa127fa, 0xd4ef3085, 0x04881d05,
   0xd9d4d039, 0xe6db99e5, 0x1fa27cf8, 0xc4ac5665,
   0xf4292244, 0x432aff97, 0xab9423a7, 0xfc93a039,
   0x655b59c3, 0x8f0ccc92, 0xffeff47d, 0x85845dd1,
   0x6fa87e4f, 0xfe2ce6e0, 0xa3014314, 0x4e0811a1,
   0xf7537e82, 0xbd3af235, 0x2ad7d2bb, 0xeb86d391]

/-- The 64 per-round left-rotation amounts of RFC 1321. -/
def sTable : List Nat :=
  [7, 12, 17, 22, 7, 12, 17, 22, 7, 12, 17, 22, 7, 12, 17, 22,
   5, 9, 14, 20, 5, 9, 14, 20, 5, 9, 14, 20, 5, 9, 14, 20,
   4, 11, 16, 23, 4, 11, 16, 23, 4, 11, 16, 23, 4, 11, 16, 23,
   6, 10, 15, 21, 6, 10, 15, 21, 6, 10, 15, 21, 6, 10, 15, 21]

structure Words where
  a : Nat
  b : Nat
  c : Nat
  d : Nat
deriving DecidableEq, Repr

def initWords : Words :=
  { a := 0x67452301, b := 0xefcdab89, c := 0x98badcfe, d := 0x10325476 }

/-- One of the 64 mixing rounds; `m` is the 16-word message chunk. -/
def mixStep (m : List Nat) (st : Words) (i : Nat) : Words :=
  let f :=
    if i < 16 then (st.b &&& st.c) ||| (not32 st.b &&& st.d)
    else if i < 32 then (st.d &&& st.b) ||| (not32 st.d &&& st.c)
    else if i < 48 then st.b ^^^ st.c ^^^ st.d
    else st.c ^^^ (st.b ||| not32 st.d)
  let g :=
    if i < 16 then i
    else if i < 32 then (5 * i + 1) % 16
    else if i < 48 then (3 * i + 5) % 16
    else (7 * i) % 16
  let f2 := (f + st.a + kTable.getD i 0 + m.getD g 0) % mask32
  { a := st.d, b := add32 st.b (rotl32 f2 (sTable.getD i 0)), c := st.b, d := st.c }

def processChunk (st : Words) (m : List Nat) : Words :=
  let r := (List.range 64).foldl (mixStep m) st
  { a := add32 st.a r.a, b := add32 st.b r.b, c := add32 st.c r.c, d := add32 st.d r.d }

/-- Little-endian 4-byte word. -/
def leWord (b0 b1 b2 b3 : Nat) : Nat := b0 + 256 * b1 + 65536 * b2 + 16777216 * b3

def chunkToWords (chunk : List Nat) : List Nat :=
  (List.range 16).map (fun j =>
    leWord (chunk.getD (4 * j) 0) (chunk.getD (4 * j + 1) 0)
      (chunk.getD (4 * j + 2) 0) (chunk.getD (4 * j + 3) 0))

/-- RFC 1321 padding: a 0x80 byte, zeros to 56 mod 64, then the
64-bit little-endian bit length. -/
def padBytes (msg : List Nat) : List Nat :=
  let len := msg.length
  let padZeros := (119 - len % 64) % 64
  let bitLen := (8 * len) % 18446744073709551616
  msg ++ [128] ++ List.replicate padZeros 0 ++
    (List.range 8).map (fun i => (bitLen >>> (8 * i)) % 256)

def chunks (padded : List Nat) : List (List Nat) :=
  (List.range (padded.length / 64)).map (fun i => (padded.drop (64 * i)).take 64)

def digestWords (msg : List Nat) : Words :=
  ((chunks (padBytes msg)).map chunkToWords).foldl processChunk initWords

def wordBytes (w : Nat) : List Nat :=
  [w % 256, (w >>> 8) % 256, (w >>> 16) % 256, (w >>> 24) % 256]

def digestBytes (msg : List Nat) : List Nat :=
  let st := digestWords msg
  wordBytes st.a ++ wordBytes st.b ++ wordBytes st.c ++ wordBytes st.d

def hexDigit (n : Nat) : Char :=
  if n < 10 then Char.ofNat (48 + n) else Char.ofNat (87 + n)

def byteHex (b : Nat) : List Char := [hexDigit (b / 16), hexDigit (b % 16)]

/-- The character list of `hashlib.md5(msg).hexdigest()`: 32 lowercase
hex characters. -/
def hexdigestChars (msg : List Nat) : List Char :=
  ((digestBytes msg).map byteHex).flatten

/-- `hashlib.md5(msg).hexdigest()`. -/
def hexdigest (msg : List Nat) : String :=
  String.mk (hexdigestChars msg)

end Md5

/-- The UTF-8 bytes of an ASCII string (all strings fed to md5 by the
cache service are ASCII, since `json.dumps` escapes non-ASCII input). -/
def strBytes (s : String) : List Nat := s.data.map Char.toNat

/- ===================================================================
   Part 2: the fragment of Python `json.dumps` semantics used by
   `src/services/cache.py` line 144: serializing a list of
   (string, value) pairs where values are None, str or int, with the
   default separators.
   =================================================================== -/

namespace PyJson

/-- A Python value that can appear in the keyword-filter maps passed to
`generate_cache_key` (see `TaskService.get_tasks`): None, str or int. -/
inductive Val where
  | null
  | str (s : String)
  | int (n : Int)
deriving DecidableEq, Repr

/-- JSON string escaping for the characters that can occur in the
cache-service inputs (plain ASCII; quote and backslash escaped). -/
def escapeChar (c : Char) : List Char :=
  if c = '"' then ['\\', '"']
  else if c = '\\' then ['\\', '\\']
  else [c]

def dumpStr (s : String) : String :=
  String.mk ('"' :: ((s.data.map escapeChar).flatten ++ ['"']))

def dumpVal : Val → String
  | .null => "null"
  | .str s => dumpStr s
  | .int n => toString n

def dumpPair (p : String × Val) : String :=
  "[" ++ dumpStr p.1 ++ ", " ++ dumpVal p.2 ++ "]"

/-- The comma-joined pair items of `json.dumps` of a list of pairs. -/
def dumpPairsBody : List (String × Val) → String
  | [] => ""
  | [p] => dumpPair p
  | p :: rest => dumpPair p ++ ", " ++ dumpPairsBody rest

/-- `json.dumps` of a list of pairs (Python tuples render as JSON
arrays, with the default item separator). -/
def dumpPairList (l : List (String × Val)) : String :=
  "[" ++ dumpPairsBody l ++ "]"

/-- Python string comparison: lexicographic on code points. -/
def strLtChars : List Char → List Char → Bool
  | [], [] => false
  | [], _ :: _ => true
  | _ :: _, [] => false
  | a :: as, b :: bs =>
    if a.toNat < b.toNat then true
    else if b.toNat < a.toNat then false
    else strLtChars as bs

def pyStrLt (s t : String) : Bool := strLtChars s.data t.data

/-- Insertion step of `sorted` on (key, value) pairs with unique keys:
ordering is decided by the string keys. -/
def insertByKey (p : String × Val) : List (String × Val) → List (String × Val)
  | [] => [p]
  | q :: rest => if pyStrLt p.1 q.1 then p :: q :: rest else q :: insertByKey p rest

/-- Python `sorted(kwargs.items())` for a dict with unique keys. -/
def sortPairs (l : List (String × Val)) : List (String × Val) :=
  l.foldr insertByKey []

end PyJson

/- ===================================================================
   Part 3: `CacheService.generate_cache_key` and the task-list cache
   helpers (src/services/cache.py lines 132-189), plus a store model
   for the Redis key/value commands they issue.
   =================================================================== -/

/-- Errors a modelled Python computation can surface: an HTTP error
response, or an uncaught runtime exception such as the
UnboundLocalError raised by reading a never-assigned local. -/
inductive PyErr where
  | http (code : Nat) (detail : String)
  | unboundLocal (name : String)
deriving DecidableEq, Repr

/-- The character interleaving performed by Python
`":".join(someString)`: each character of the argument becomes its own
one-character item. -/
def joinColon : List Char → List Char
  | [] => []
  | [c] => [c]
  | c :: rest => c :: ':' :: joinColon rest

/-- `CacheService.generate_cache_key` (src/services/cache.py lines
132-148), translated statement by statement.  `args` holds the
positional arguments already rendered by `str` (every caller passes
strings).  Line 148 is `return ":".join(kwargs_hash)`: it joins the
characters of the hash string, and when no keyword arguments were
given the local `kwargs_hash` was never assigned, so the return
statement raises UnboundLocalError. -/
def generate_cache_key (pre : String) (args : List String)
    (kwargs : List (String × PyJson.Val)) : Except PyErr String :=
  let parts := pre :: args
  if kwargs.isEmpty then
    .error (.unboundLocal "kwargs_hash")
  else
    let sorted_kwargs := PyJson.sortPairs kwargs
    let kwargs_str := PyJson.dumpPairList sorted_kwargs
    let kwargs_hash := (Md5.hexdigestChars (strBytes kwargs_str)).take 8
    let _parts' := parts ++ [String.mk kwargs_hash]
    .ok (String.mk (joinColon kwargs_hash))

/-- The key construction the spec describes (section 4.7): the prefix
and stringified args joined by colons, plus, when keyword filters are
present, the 8-character hash as one more colon-separated segment.
Stated from the words of the spec, for comparison with the source
translation above. -/
def specCacheKey (pre : String) (args : List String)
    (kwargs : List (String × PyJson.Val)) : String :=
  let parts := pre :: args
  if kwargs.isEmpty then
    String.intercalate ":" parts
  else
    let kwargs_str := PyJson.dumpPairList (PyJson.sortPairs kwargs)
    let kwargs_hash := String.mk ((Md5.hexdigestChars (strBytes kwargs_str)).take 8)
    String.intercalate ":" (parts ++ [kwargs_hash])

/-- The cache key used by `cache_task_list` and `get_cached_task_list`
(src/services/cache.py lines 178-185). -/
def cache_task_list_key (user_id : String)
    (filters : List (String × PyJson.Val)) : Except PyErr String :=
  generate_cache_key "tasks" ["list", user_id] filters

/-- The filter dict built by `TaskService.get_tasks`
(src/services/task.py lines 117-126). -/
def getTasksFilters (stat prio search assigned : PyJson.Val)
    (sort_by ord : String) (page lim : Int) : List (String × PyJson.Val) :=
  [("status", stat), ("priority", prio), ("search", search),
   ("assigned_to", assigned), ("sort_by", .str sort_by), ("order", .str ord),
   ("page", .int page), ("limit", .int lim)]

/-- The filters of a `get_tasks` call with every query parameter left
at its default (src/app/api/v1/endpoints/tasks.py lines 22-29). -/
def defaultFilters : List (String × PyJson.Val) :=
  getTasksFilters .null .null .null .null "created_at" "desc" 1 10

/-- A Redis string keyspace: keys mapped to serialized values. -/
def Store := List (String × String)

def storeGet (st : Store) (k : String) : Option String := st.lookup k

def storeSet (st : Store) (k v : String) : Store :=
  (k, v) :: st.filter (fun p => p.1 != k)

/-- Whether a key matches the glob pattern `tasks:list:*` used by
`invalidate_all_task_lists` (a trailing-star glob matches exactly the
strings extending its literal part). -/
def matchesTaskListPattern (k : String) : Bool :=
  "tasks:list:".data.isPrefixOf k.data

/-- `invalidate_all_task_lists` (src/services/cache.py lines 187-189):
delete every key matching `tasks:list:*`. -/
def invalidate_all_task_lists (st : Store) : Store :=
  st.filter (fun p => !matchesTaskListPattern p.1)

/-- `cache_task_list` (src/services/cache.py lines 178-181): store the
serialized list under the generated key. -/
def cache_task_list (st : Store) (user_id : String)
    (filters : List (String × PyJson.Val)) (v : String) : Except PyErr Store :=
  (cache_task_list_key user_id filters).map (fun k => storeSet st k v)

/-- `get_cached_task_list` (src/services/cache.py lines 183-185). -/
def get_cached_task_list (st : Store) (user_id : String)
    (filters : List (String × PyJson.Val)) : Except PyErr (Option String) :=
  (cache_task_list_key user_id filters).map (fun k => storeGet st k)

/- ===================================================================
   Part 4: the auth service (src/services/auth.py).
   =================================================================== -/

inductive UserRole where
  | admin
  | member
deriving DecidableEq, Repr

/-- A row of the `users` table (src/models/user.py); ids are modelled
as naturals standing for the generated UUIDs. -/
structure UserRec where
  id : Nat
  email : String
  password_hash : String
  full_name : String
  role : UserRole
  is_active : Bool
deriving DecidableEq, Repr

/-- The password-hashing primitive (a third-party boundary the spec
does not cover internally, section 1), modelled as an injective
tagging function. -/
def hash_password (p : String) : String := "bcrypt$" ++ p

/-- `verify_password` compares a plaintext candidate against a stored
hash (src/core/security.py). -/
def verify_password (plain stored : String) : Bool := stored == hash_password plain

structure RegisterData where
  email : String
  password : String
  full_name : String
deriving DecidableEq, Repr

/-- The body of the `try` block of `register_user` (src/services/auth.py
lines 21-56): check for an existing user by email, raise a 400 conflict
if found, otherwise persist a new member-role user and return it.  Ids
are assigned by the store; modelled as the row count. -/
def register_user_attempt (db : List UserRec) (d : RegisterData) :
    List UserRec × Except PyErr UserRec :=
  if db.any (fun u => u.email == d.email) then
    (db, .error (.http 400 "Email already registered"))
  else
    let new_user : UserRec :=
      { id := db.length, email := d.email,
        password_hash := hash_password d.password,
        full_name := d.full_name, role := .member, is_active := true }
    (db ++ [new_user], .ok new_user)

/-- `AuthService.register_user` (src/services/auth.py lines 17-64).
The whole body sits in `try ... except Exception` (line 58); in Python
`HTTPException` is a subclass of `Exception`, so the duplicate-email
400 raised at line 28 is caught by that handler, which rolls the
session back and raises 500 "Failed to create user" instead. -/
def register_user (db : List UserRec) (d : RegisterData) :
    List UserRec × Except PyErr UserRec :=
  match register_user_attempt db d with
  | (db', .ok u) => (db', .ok u)
  | (_, .error _) => (db, .error (.http 500 "Failed to create user"))

/-- The register endpoint (src/app/api/v1/endpoints/auth.py lines
18-23): status 201 with the created user on success; an error raised
by the service propagates with its own status code. -/
def registerEndpoint (db : List UserRec) (d : RegisterData) :
    List UserRec × Except PyErr (Nat × UserRec) :=
  match register_user db d with
  | (db', .ok u) => (db', .ok (201, u))
  | (db', .error e) => (db', .error e)

structure LoginData where
  email : String
  password : String
deriving DecidableEq, Repr

/-- `AuthService.authenticate_user` (src/services/auth.py lines
68-101), with the two 401 message strings transcribed exactly as they
appear at lines 78 and 90. -/
def authenticate_user (db : List UserRec) (l : LoginData) : Except PyErr UserRec :=
  match db.find? (fun u => u.email == l.email) with
  | none => .error (.http 401 "incorrect email or password")
  | some user =>
    if !verify_password l.password user.password_hash then
      .error (.http 401 "Incorrect email or password")
    else if !user.is_active then
      .error (.http 403 "account is inactive")
    else
      .ok user

/- ===================================================================
   Part 5: the task creation schema (src/schemas/task.py).
   =================================================================== -/

inductive TaskPriority where
  | low
  | medium
  | high
deriving DecidableEq, Repr

/-- A task-creation request body; the due date is an epoch second. -/
structure TaskCreatePayload where
  title : String
  description : Option String
  priority : TaskPriority
  due_date : Option Int
  assigned_to : Option Nat
deriving DecidableEq, Repr

/-- Declared class hierarchy fact from src/schemas/task.py line 10:
`TaskBase` is written `class TaskBase:` with no base classes, so
neither it nor `TaskCreate(TaskBase)` subclasses pydantic `BaseModel`. -/
def taskCreateIsBaseModel : Bool := false

/-- The `validate_due_date` validator written on `TaskCreate`
(src/schemas/task.py lines 19-23): if a due date is supplied and is
earlier than the current instant, raise a validation error. -/
def validate_due_date (now : Int) (v : Option Int) : Except String (Option Int) :=
  match v with
  | some d => if d < now then .error "due date must be in the future" else .ok v
  | none => .ok none

/-- The `Field` bounds declared on `TaskBase` (src/schemas/task.py
lines 11-12): title 2-150 characters, optional description up to
400 characters. -/
def taskFieldBoundsOk (p : TaskCreatePayload) : Bool :=
  2 ≤ p.title.length && p.title.length ≤ 150 &&
    (match p.description with
     | some d => d.length ≤ 400
     | none => true)

/-- The validation the declared constraints describe: pydantic would
run the field bounds and then the due-date validator. -/
def taskCreateDeclaredValidation (now : Int) (p : TaskCreatePayload) :
    Except String TaskCreatePayload :=
  if !taskFieldBoundsOk p then .error "field bounds violated"
  else (validate_due_date now p.due_date).map (fun _ => p)

/-- Parsing of a creation request body into `TaskCreate` as the
program actually performs it: pydantic runs declared constraints and
validators only on `BaseModel` subclasses, and `TaskCreate` is not one
(see `taskCreateIsBaseModel`), so the payload reaches the endpoint
handler (src/app/api/v1/endpoints/tasks.py lines 16-19) unchecked. -/
def taskCreateParse (now : Int) (p : TaskCreatePayload) : Except String TaskCreatePayload :=
  if taskCreateIsBaseModel then taskCreateDeclaredValidation now p else .ok p

/- ===================================================================
   Part 6: the comment service (src/services/comment.py).
   =================================================================== -/

/-- A row of the `tasks` table with the fields `create_comment`
consults. -/
structure TaskRec where
  id : Nat
  created_by : Nat
  assigned_to : Option Nat
  title : String
deriving DecidableEq, Repr

structure CommentRec where
  id : Nat
  task_id : Nat
  user_id : Nat
  content : String
  deleted_at : Option Int
deriving DecidableEq, Repr

structure CommentDb where
  tasks : List TaskRec
  comments : List CommentRec
  next_comment_id : Nat
deriving DecidableEq, Repr

/-- `CommentService.create_comment` (src/services/comment.py lines
21-103).  The entire persistence, reload and notification block (lines
46-102) is nested inside the `if current_user.role == UserRole.MEMBER:`
branch that begins at line 39, so a non-member caller skips it and
falls through to line 103, where `return comment_with_author` reads a
local that was never assigned and raises UnboundLocalError.  On the
member success path the comment is reloaded with its author attached,
modelled as the (comment, author) pair. -/
def create_comment (db : CommentDb) (task_id : Nat) (content : String)
    (current_user : UserRec) : CommentDb × Except PyErr (CommentRec × UserRec) :=
  match db.tasks.find? (fun t => t.id == task_id) with
  | none => (db, .error (.http 404 "Task not found"))
  | some task =>
    if current_user.role = .member then
      if task.created_by ≠ current_user.id ∧ task.assigned_to ≠ some current_user.id then
        (db, .error (.http 403 "Not authorized to comment on this task"))
      else
        let new_comment : CommentRec :=
          { id := db.next_comment_id, task_id := task_id,
            user_id := current_user.id, content := content, deleted_at := none }
        ({ db with comments := db.comments ++ [new_comment],
                   next_comment_id := db.next_comment_id + 1 },
         .ok (new_comment, current_user))
    else
      (db, .error (.unboundLocal "comment_with_author"))

/- ===================================================================
   Part 7: the rate limiter (src/utils/rate_limiter.py).  The per-key
   Redis sorted set holds request timestamps (`str(t)` scored by `t`,
   so members are in bijection with their scores) and the key carries
   an expiry; timestamps are `time.time()` values, modelled as
   rationals.
   =================================================================== -/

/-- A rate-limit key: the sorted-set scores plus the key expiry last
set by `expire`. -/
structure RLState where
  members : List ℚ
  ttl : Option Nat
deriving DecidableEq, Repr

inductive RLResult where
  | allowed
  | rejected (retry_after : Int)
deriving DecidableEq, Repr

/-- Executable rational addition; equal to `+` (see `ratAdd_eq`), but
written with `mkRat` so that concrete values evaluate. -/
def ratAdd (a b : ℚ) : ℚ := mkRat (a.num * b.den + b.num * a.den) (a.den * b.den)

/-- Executable rational subtraction; equal to `-` (see `ratSub_eq`). -/
def ratSub (a b : ℚ) : ℚ := mkRat (a.num * b.den - b.num * a.den) (a.den * b.den)

/-- Python `int()` on a float value: truncation toward zero, which is
t-division of the numerator by the denominator. -/
def pyInt (x : ℚ) : Int := x.num.tdiv x.den

/-- `ZREMRANGEBYSCORE key lo hi`: remove members with scores in the
closed interval. -/
def zremrangebyscore (l : List ℚ) (lo hi : ℚ) : List ℚ :=
  l.filter (fun s => decide (¬(lo ≤ s ∧ s ≤ hi)))

/-- `ZADD key (str(t), t)`: inserting an already-present member leaves
the set unchanged. -/
def zadd (l : List ℚ) (t : ℚ) : List ℚ :=
  if t ∈ l then l else l ++ [t]

/-- `ZRANGE key 0 0 WITHSCORES`: the lowest score, if any. -/
def oldestScore : List ℚ → Option ℚ
  | [] => none
  | x :: xs => some (xs.foldl min x)

/-- `RateLimiter.check_rate_limit` (src/utils/rate_limiter.py lines
26-94) on a reachable store: prune scores in `[0, now - window]`,
count, reject with `retry_after = int(oldest + window - now)` when the
count has reached the limit (falling back to the window length when
the pruned set is empty), otherwise record `now` and set the key
expiry to the window. -/
def check_rate_limit (st : RLState) (now : ℚ) (lim : Nat) (window : Nat) :
    RLState × RLResult :=
  let window_start : ℚ := ratSub now (window : ℚ)
  let members' := zremrangebyscore st.members 0 window_start
  let request_count := members'.length
  if lim ≤ request_count then
    let retry_after : Int :=
      match oldestScore members' with
      | some o => pyInt (ratSub (ratAdd o (window : ℚ)) now)
      | none => window
    ({ st with members := members' }, .rejected retry_after)
  else
    ({ members := zadd members' now, ttl := some window }, .allowed)

/-- A sequence of checks against one rate-limit key, returning the
final key state and the per-request outcomes. -/
def runRequests (st : RLState) (times : List ℚ) (lim window : Nat) :
    RLState × List RLResult :=
  match times with
  | [] => (st, [])
  | t :: rest =>
    let p := check_rate_limit st t lim window
    let q := runRequests p.1 rest lim window
    (q.1, p.2 :: q.2)

/-- The configured default limit (src/core/config.py line 34:
`rate_limit_per_minute` defaults to 100). -/
def rate_limit_per_minute : Nat := 100

/- ===================================================================
   Part 8: the real-time connection manager (src/core/websocket.py)
   and the disconnect path of the websocket endpoint
   (src/app/api/v1/endpoints/websocket.py).  Channels are modelled as
   numeric ids; the two Python dicts become association lists with the
   dict operations spelled out.
   =================================================================== -/

/-- Python dict read `m.get(k)` / `m[k]`. -/
def dictGet {α : Type} (m : List (String × α)) (k : String) : Option α :=
  match m.find? (fun p => p.1 == k) with
  | some p => some p.2
  | none => none

/-- Python dict write `m[k] = v`: overwrite in place, or append a new
key at the end. -/
def dictSet {α : Type} (m : List (String × α)) (k : String) (v : α) :
    List (String × α) :=
  if m.any (fun p => p.1 == k) then
    m.map (fun p => if p.1 == k then (k, v) else p)
  else
    m ++ [(k, v)]

/-- Python dict delete `del m[k]`. -/
def dictDel {α : Type} (m : List (String × α)) (k : String) :
    List (String × α) :=
  m.filter (fun p => p.1 != k)

/-- The two in-memory maps of `ConnectionManager` (src/core/websocket.py
lines 14-18): user id to open channels, and task id to viewer ids. -/
structure CMState where
  active_connections : List (String × List Nat)
  task_viewers : List (String × List String)
deriving DecidableEq, Repr

def initCM : CMState := { active_connections := [], task_viewers := [] }

/-- `ConnectionManager.connect` state change (src/core/websocket.py
lines 21-28): ensure the user has an entry and append the channel. -/
def cmConnect (st : CMState) (user_id : String) (ws : Nat) : CMState :=
  let cur := (dictGet st.active_connections user_id).getD []
  { st with active_connections := dictSet st.active_connections user_id (cur ++ [ws]) }

/-- `ConnectionManager.disconnect` (src/core/websocket.py lines 44-62):
remove the channel; when the user has no channels left, delete the
user entry and remove them from every task-viewer set, deleting viewer
sets that become empty. -/
def cmDisconnect (st : CMState) (ws : Nat) (user_id : String) : CMState :=
  match dictGet st.active_connections user_id with
  | none => st
  | some l =>
    let l' := if ws ∈ l then l.erase ws else l
    if l'.isEmpty then
      { active_connections := dictDel st.active_connections user_id,
        task_viewers := st.task_viewers.filterMap (fun p =>
          if user_id ∈ p.2 then
            let vs := p.2.erase user_id
            if vs.isEmpty then none else some (p.1, vs)
          else
            some p) }
    else
      { st with active_connections := dictSet st.active_connections user_id l' }

/-- `ConnectionManager.join_task_view` (src/core/websocket.py lines
113-118): ensure the task has a viewer set and add the user (set add,
a no-op when already present). -/
def join_task_view (st : CMState) (user_id task_id : String) : CMState :=
  let cur := (dictGet st.task_viewers task_id).getD []
  let vs := if user_id ∈ cur then cur else cur ++ [user_id]
  { st with task_viewers := dictSet st.task_viewers task_id vs }

/-- `ConnectionManager.leave_task_view` (src/core/websocket.py lines
120-126): remove the user if present, deleting the set when it becomes
empty. -/
def leave_task_view (st : CMState) (user_id task_id : String) : CMState :=
  match dictGet st.task_viewers task_id with
  | none => st
  | some vs =>
    if user_id ∈ vs then
      let vs' := vs.erase user_id
      if vs'.isEmpty then
        { st with task_viewers := dictDel st.task_viewers task_id }
      else
        { st with task_viewers := dictSet st.task_viewers task_id vs' }
    else
      st

/-- `ConnectionManager.is_user_online` (src/core/websocket.py line 136). -/
def is_user_online (st : CMState) (u : String) : Bool :=
  st.active_connections.any (fun p => p.1 == u)

/-- `ConnectionManager.get_online_users` (src/core/websocket.py
line 128). -/
def get_online_users (st : CMState) : List String :=
  st.active_connections.map (fun p => p.1)

/-- A `user_status` presence message as delivered to one recipient. -/
structure WsMessage where
  recipient : String
  about_user : String
  status : String
deriving DecidableEq, Repr

/-- `ConnectionManager.broadcast_user_status` (src/core/websocket.py
lines 99-111): deliver a `user_status` event to every connected user
except the subject. -/
def broadcast_user_status (st : CMState) (user_id status : String) : List WsMessage :=
  ((get_online_users st).filter (fun u => u != user_id)).map
    (fun r => { recipient := r, about_user := user_id, status := status })

/-- The `WebSocketDisconnect` handler of the websocket endpoint
(src/app/api/v1/endpoints/websocket.py lines 114-119): deregister the
channel, then broadcast an offline presence event unconditionally. -/
def websocket_disconnect_handler (st : CMState) (ws : Nat) (user_id : String) :
    CMState × List WsMessage :=
  let st' := cmDisconnect st ws user_id
  (st', broadcast_user_status st' user_id "offline")

/-- The connection-manager operations whose state bookkeeping is
synchronous (spec section 4.10). -/
inductive CMOp where
  | connect (user_id : String) (ws : Nat)
  | disconnect (ws : Nat) (user_id : String)
  | joinTaskView (user_id task_id : String)
  | leaveTaskView (user_id task_id : String)
deriving DecidableEq, Repr

def applyOp (st : CMState) : CMOp → CMState
  | .connect u w => cmConnect st u w
  | .disconnect w u => cmDisconnect st w u
  | .joinTaskView u t => join_task_view st u t
  | .leaveTaskView u t => leave_task_view st u t

/-- The state after a sequence of operations on a fresh manager. -/
def runOps (ops : List CMOp) : CMState := ops.foldl applyOp initCM

/-- The claimed invariant: every present user maps to at least one
channel and every present task to at least one viewer. -/
def cmNonempty (st : CMState) : Bool :=
  st.active_connections.all (fun p => !p.2.isEmpty) &&
    st.task_viewers.all (fun p => !p.2.isEmpty)

/-- The well-formedness the manager maintains: present users have at
least one channel, present tasks have at least one viewer, and viewer
sets are duplicate-free (they model Python sets). -/
def cmWF (st : CMState) : Prop :=
  (∀ p ∈ st.active_connections, p.2 ≠ []) ∧
  (∀ p ∈ st.task_viewers, p.2 ≠ []) ∧
  (∀ p ∈ st.task_viewers, p.2.Nodup)

instance exceptDecEq {ε α : Type} [DecidableEq ε] [DecidableEq α] :
    DecidableEq (Except ε α) := fun x y =>
  match x, y with
  | .ok a, .ok b =>
    if h : a = b then .isTrue (h ▸ rfl) else .isFalse (fun hc => h (Except.ok.inj hc))
  | .error a, .error b =>
    if h : a = b then .isTrue (h ▸ rfl) else .isFalse (fun hc => h (Except.error.inj hc))
  | .ok _, .error _ => .isFalse (fun hc => Except.noConfusion hc)
  | .error _, .ok _ => .isFalse (fun hc => Except.noConfusion hc)

/- ===================================================================
   Theorems.
   =================================================================== -/

set_option maxRecDepth 100000

/-- Claim C1: the claim states that the requesting user id is part of
the task-list cache key, so a list cached for user A is never returned
to user B.  The code violates this: `generate_cache_key` returns
`":".join(kwargs_hash)` (src/services/cache.py line 148), which drops
the prefix and all positional arguments, including the user id, so two
distinct users with identical filters share one key, and a list cached
for `userA` is returned verbatim to a `get_cached_task_list` lookup
for `userB`. -/
theorem c1_cache_key_ignores_user :
    "userA" ≠ "userB" ∧
    cache_task_list_key "userA" defaultFilters = cache_task_list_key "userB" defaultFilters ∧
    (cache_task_list [] "userA" defaultFilters "cached tasks of user A").bind
        (fun st => get_cached_task_list st "userB" defaultFilters) =
      .ok (some "cached tasks of user A") := by
  decide

/-- Claim C2: the claim states that any permitted caller, in
particular an admin, gets their comment persisted and returned with
author details.  The code violates this for admin callers: the
persistence block of `create_comment` (src/services/comment.py lines
46-102) is nested inside the member-role branch, so an admin call
skips it and the `return comment_with_author` at line 103 raises
UnboundLocalError, with no comment persisted.  The member
creator path does persist and return the comment, as the second and
third conjuncts show. -/
theorem c2_admin_comment_unbound_local :
    create_comment ⟨[⟨1, 10, some 20, "T"⟩], [], 1⟩ 1 "hi"
        ⟨30, "adm@x.com", "h", "Admin", .admin, true⟩ =
      (⟨[⟨1, 10, some 20, "T"⟩], [], 1⟩, .error (.unboundLocal "comment_with_author")) ∧
    (create_comment ⟨[⟨1, 10, some 20, "T"⟩], [], 1⟩ 1 "hi"
        ⟨10, "creator@x.com", "h", "Creator", .member, true⟩).2 =
      .ok (⟨1, 1, 10, "hi", none⟩, ⟨10, "creator@x.com", "h", "Creator", .member, true⟩) ∧
    (create_comment ⟨[⟨1, 10, some 20, "T"⟩], [], 1⟩ 1 "hi"
        ⟨10, "creator@x.com", "h", "Creator", .member, true⟩).1.comments =
      [⟨1, 1, 10, "hi", none⟩] := by
  decide

/-- Claim C3: the claim states that a second registration with the
same email fails with a 400 conflict, not a 500.  The code violates
the status: the duplicate-email HTTPException(400) raised inside
`register_user` is swallowed by the surrounding
`except Exception` (src/services/auth.py line 58), which re-raises 500
"Failed to create user".  The first registration does return 201 with
the created user, and the second attempt leaves the store unchanged
(no second user persisted). -/
theorem c3_duplicate_email_surfaces_500 :
    registerEndpoint [] ⟨"a@x.com", "Abcdefg1", "Alice"⟩ =
      ([⟨0, "a@x.com", hash_password "Abcdefg1", "Alice", .member, true⟩],
       .ok (201, ⟨0, "a@x.com", hash_password "Abcdefg1", "Alice", .member, true⟩)) ∧
    registerEndpoint [⟨0, "a@x.com", hash_password "Abcdefg1", "Alice", .member, true⟩]
        ⟨"a@x.com", "Abcdefg1", "Alice"⟩ =
      ([⟨0, "a@x.com", hash_password "Abcdefg1", "Alice", .member, true⟩],
       .error (.http 500 "Failed to create user")) := by
  decide

/-- Claim C4: the claim states the key is `prefix:arg1:arg2:...`, plus
an 8-hex-character segment when keyword filters are present.  The code
violates both halves: with no keyword filters the return statement
reads the never-assigned local `kwargs_hash` and raises
UnboundLocalError (the docstring example at src/services/cache.py line
135 promises "user:123"), and with keyword filters it returns the 8
hash characters interleaved with colons, dropping the prefix and
args.  `specCacheKey`, written from the words of the spec, shows the
intended values at the same inputs. -/
theorem c4_generate_cache_key_join_bug :
    generate_cache_key "user" ["123"] [] = .error (.unboundLocal "kwargs_hash") ∧
    specCacheKey "user" ["123"] [] = "user:123" ∧
    generate_cache_key "tasks" ["list", "u1"] defaultFilters = .ok "4:f:3:4:7:a:5:2" ∧
    specCacheKey "tasks" ["list", "u1"] defaultFilters = "tasks:list:u1:4f347a52" := by
  decide

/-- Claim C5: the claim states every stored task-list cache key
matches the `tasks:list:*` pattern deleted after a task create, so a
subsequent identical `get_tasks` does not see a pre-create cached
list.  The code violates this: the stored key (from the defective
`generate_cache_key`) does not start with `tasks:list:`, so
`invalidate_all_task_lists` deletes nothing and the stale entry is
still returned afterwards; the spec-form key would have matched. -/
theorem c5_invalidation_misses_stored_keys :
    matchesTaskListPattern "4:f:3:4:7:a:5:2" = false ∧
    (cache_task_list [] "u1" defaultFilters "stale task list").bind
        (fun st => get_cached_task_list (invalidate_all_task_lists st) "u1" defaultFilters) =
      .ok (some "stale task list") ∧
    matchesTaskListPattern (specCacheKey "tasks" ["list", "u1"] defaultFilters) = true := by
  decide

/-- Claim C6: the claim states a creation payload with a past due date
is rejected at validation before the service runs, and title bounds
are likewise enforced.  The code violates this: `TaskBase` is declared
without `BaseModel` (src/schemas/task.py line 10), so pydantic runs no
validation on `TaskCreate`; a payload one hour in the past, and a
one-character title, both reach the service unchecked, even though the
declared (dead) validator would reject the past date and the declared
bounds reject the short title. -/
theorem c6_task_create_validation_never_runs :
    taskCreateParse 1000000 ⟨"Write the report", none, .medium, some 996400, none⟩ =
      .ok ⟨"Write the report", none, .medium, some 996400, none⟩ ∧
    validate_due_date 1000000 (some 996400) = .error "due date must be in the future" ∧
    validate_due_date 1000000 (some 1003600) = .ok (some 1003600) ∧
    taskCreateParse 1000000 ⟨"x", none, .medium, none, none⟩ =
      .ok ⟨"x", none, .medium, none, none⟩ ∧
    taskFieldBoundsOk ⟨"x", none, .medium, none, none⟩ = false := by
  decide

/-- Claim C7: the claim states the 401 message text is
character-for-character identical for a nonexistent email and a wrong
password.  The code violates this: the absent-email branch responds
"incorrect email or password" (src/services/auth.py line 78) while the
wrong-password branch responds "Incorrect email or password" (line
90) — the texts differ in the case of the first letter, so the
response does distinguish the two cases. -/
theorem c7_login_messages_differ :
    authenticate_user [⟨0, "a@x.com", hash_password "Right1pw", "Alice", .member, true⟩]
        ⟨"a@x.com", "wrongpw"⟩ = .error (.http 401 "Incorrect email or password") ∧
    authenticate_user [⟨0, "a@x.com", hash_password "Right1pw", "Alice", .member, true⟩]
        ⟨"missing@x.com", "wrongpw"⟩ = .error (.http 401 "incorrect email or password") ∧
    "Incorrect email or password" ≠ "incorrect email or password" := by
  decide

/-- Claim C9: the claim states no offline presence event is broadcast
while the user still has an open channel.  The code violates this: the
endpoint disconnect handler broadcasts the offline `user_status`
unconditionally after every `WebSocketDisconnect`
(src/app/api/v1/endpoints/websocket.py line 119).  Here user `u1`
holds channels 1 and 2; after channel 1 disconnects, `u2` receives an
offline event for `u1` although `u1` is still online on channel 2. -/
theorem c9_offline_broadcast_on_partial_disconnect :
    websocket_disconnect_handler ⟨[("u1", [1, 2]), ("u2", [3])], []⟩ 1 "u1" =
      (⟨[("u1", [2]), ("u2", [3])], []⟩, [⟨"u2", "u1", "offline"⟩]) ∧
    is_user_online ⟨[("u1", [2]), ("u2", [3])], []⟩ "u1" = true := by
  decide

theorem ratAdd_eq (a b : ℚ) : ratAdd a b = a + b := by
  have ha : ((a.den : ℚ)) ≠ 0 := by
    exact_mod_cast a.den_nz
  have hb : ((b.den : ℚ)) ≠ 0 := by
    exact_mod_cast b.den_nz
  rw [ratAdd, Rat.mkRat_eq_div]
  push_cast
  conv_rhs => rw [← Rat.num_div_den a, ← Rat.num_div_den b, div_add_div _ _ ha hb]
  ring_nf

theorem ratSub_eq (a b : ℚ) : ratSub a b = a - b := by
  have ha : ((a.den : ℚ)) ≠ 0 := by
    exact_mod_cast a.den_nz
  have hb : ((b.den : ℚ)) ≠ 0 := by
    exact_mod_cast b.den_nz
  rw [ratSub, Rat.mkRat_eq_div]
  push_cast
  conv_rhs => rw [← Rat.num_div_den a, ← Rat.num_div_den b, div_sub_div _ _ ha hb]
  ring_nf

/-- Claim C8 (counterexample): the claim states the rejection carries
`retry_after = oldest_remaining_timestamp + 60 - now` exactly, hence a
positive Retry-After for the 101st in-window request, and that only
members older than `now - 60` are removed.  Here the window already
holds 100 request timestamps 0, 1/2, ..., 99/2 and the 101st request
arrives at `now = 119/2` with the default limit of 100: the code
rejects with `retry_after = 0`, while the claimed formula value
`0 + 60 - 119/2` equals `1/2`, which is nonzero — and 0 is not
positive: Python `int()` truncation loses the fraction.  The last
conjunct shows the boundary discrepancy: a member at exactly
`now - 60` (not older than `now - 60`) is removed, so the code allows
a request the claimed algorithm would reject. -/
theorem c8_counterexample_retry_truncation :
    check_rate_limit ⟨(List.range 100).map (fun i => mkRat (i : Int) 2), some 60⟩
        (mkRat 119 2) rate_limit_per_minute 60 =
      (⟨(List.range 100).map (fun i => mkRat (i : Int) 2), some 60⟩, .rejected 0) ∧
    ((0 : ℚ) + 60 - mkRat 119 2 = mkRat 1 2) ∧ ((mkRat 1 2 : ℚ) ≠ 0) ∧
    ¬((0 : Int) < 0) ∧
    check_rate_limit ⟨[60], none⟩ 120 1 60 = (⟨[120], some 60⟩, .allowed) :=
  ⟨by decide, by rw [← ratAdd_eq, ← ratSub_eq]; decide, by decide, by decide, by decide⟩

/-- Splitting a request sequence: running `l1 ++ l2` equals running
`l1` and then `l2` from the resulting state. -/
theorem runRequests_append (st : RLState) (l1 l2 : List ℚ) (lim window : Nat) :
    runRequests st (l1 ++ l2) lim window =
      ((runRequests (runRequests st l1 lim window).1 l2 lim window).1,
       (runRequests st l1 lim window).2 ++
         (runRequests (runRequests st l1 lim window).1 l2 lim window).2) := by
  induction l1 generalizing st with
  | nil => simp [runRequests]
  | cons t rest ih => simp [runRequests, ih]

theorem foldl_min_eq_self (x : ℚ) (xs : List ℚ) (h : ∀ y ∈ xs, x ≤ y) :
    xs.foldl min x = x := by
  induction xs with
  | nil => rfl
  | cons y ys ih =>
    have hxy : min x y = x := min_eq_left (h y (List.mem_cons_self y ys))
    rw [List.foldl_cons, hxy]
    exact ih (fun z hz => h z (List.mem_cons_of_mem _ hz))

theorem oldestScore_sorted (x : ℚ) (xs : List ℚ) (h : ∀ y ∈ xs, x ≤ y) :
    oldestScore (x :: xs) = some x := by
  simp [oldestScore, foldl_min_eq_self x xs h]

/-- Pruning removes nothing when no member falls in the interval. -/
theorem zrem_keeps (l : List ℚ) (lo hi : ℚ) (h : ∀ s ∈ l, ¬(lo ≤ s ∧ s ≤ hi)) :
    zremrangebyscore l lo hi = l := by
  unfold zremrangebyscore
  apply List.filter_eq_self.mpr
  intro a ha
  exact decide_eq_true (h a ha)

/-- A run of strictly increasing request times, none of which lets any
present member expire, is fully allowed while capacity remains: the
final member set is the old members followed by the new times, and the
key expiry ends refreshed to the window. -/
theorem runRequests_all_allowed (lim window : Nat) (ts : List ℚ) :
    ∀ (M : List ℚ) (t0 : Option Nat),
      (M ++ ts).Pairwise (· < ·) →
      (∀ t ∈ ts, ∀ s ∈ M ++ ts, ¬((0:ℚ) ≤ s ∧ s ≤ ratSub t (window : ℚ))) →
      M.length + ts.length ≤ lim →
      runRequests ⟨M, t0⟩ ts lim window =
        (⟨M ++ ts, if ts.isEmpty then t0 else some window⟩,
         List.replicate ts.length .allowed) := by
  induction ts with
  | nil => intro M t0 _ _ _; simp [runRequests]
  | cons t rest ih =>
    intro M t0 hsort hwin hlen
    have hkeep : ∀ s ∈ M, ¬((0:ℚ) ≤ s ∧ s ≤ ratSub t (window : ℚ)) := fun s hs =>
      hwin t (List.mem_cons_self t rest) s (List.mem_append_left _ hs)
    have hfilter : zremrangebyscore M 0 (ratSub t (window : ℚ)) = M := zrem_keeps _ _ _ hkeep
    have hMt : ∀ x ∈ M, x < t := by
      intro x hx
      exact (List.pairwise_append.mp hsort).2.2 x hx t (List.mem_cons_self t rest)
    have htM : t ∉ M := fun hm => lt_irrefl t (hMt t hm)
    have hcount : ¬(lim ≤ M.length) := by
      simp only [List.length_cons] at hlen
      omega
    have hcheck : check_rate_limit ⟨M, t0⟩ t lim window =
        (⟨M ++ [t], some window⟩, .allowed) := by
      simp only [check_rate_limit, hfilter, hcount, if_false, zadd, htM, ite_false]
    have hsort' : ((M ++ [t]) ++ rest).Pairwise (· < ·) := by
      rw [← List.append_cons]
      exact hsort
    have hwin' : ∀ t' ∈ rest, ∀ s ∈ (M ++ [t]) ++ rest,
        ¬((0:ℚ) ≤ s ∧ s ≤ ratSub t' (window : ℚ)) := by
      rw [← List.append_cons]
      exact fun t' ht' s hs => hwin t' (List.mem_cons_of_mem _ ht') s hs
    have hlen' : (M ++ [t]).length + rest.length ≤ lim := by
      simp only [List.length_append, List.length_cons, List.length_nil] at hlen ⊢
      omega
    have hrec := ih (M ++ [t]) (some window) hsort' hwin' hlen'
    simp only [runRequests, hcheck, hrec, ite_self, ← List.append_cons,
      List.length_cons, List.replicate_succ]
    simp [List.isEmpty_cons]

/-- Claim C8 (amended): the rate limiter prunes members with scores in
`[0, now - 60]`, counts the remainder, rejects with
`retry_after = int(oldest_remaining + 60 - now)` (Python truncation)
once the count reaches the limit, and otherwise records `now` and
refreshes the key expiry to 60 seconds; hence for any 101 strictly
increasing request times inside one 60-second window, requests 1-100
are allowed and request 101 is rejected with a nonnegative Retry-After
that is positive whenever at least one full second of the oldest
request's window remains. -/
theorem c8_sliding_window (t1 : ℚ) (mid : List ℚ) (t101 : ℚ)
    (hmid : mid.length = 99)
    (hsort : (t1 :: (mid ++ [t101])).Pairwise (· < ·))
    (h0 : 0 ≤ t1)
    (hwin : t101 < ratAdd t1 ((60 : Nat) : ℚ)) :
    runRequests ⟨[], none⟩ (t1 :: (mid ++ [t101])) 100 60 =
      (⟨t1 :: mid, some 60⟩,
       List.replicate 100 .allowed ++
         [.rejected (pyInt (ratSub (ratAdd t1 ((60 : Nat) : ℚ)) t101))]) ∧
    0 ≤ pyInt (ratSub (ratAdd t1 ((60 : Nat) : ℚ)) t101) ∧
    (1 ≤ ratSub (ratAdd t1 ((60 : Nat) : ℚ)) t101 →
      0 < pyInt (ratSub (ratAdd t1 ((60 : Nat) : ℚ)) t101)) := by
  have hcast : (((60 : Nat) : ℚ)) = (60 : ℚ) := by norm_num
  have hwin' : t101 < t1 + 60 := by
    rw [ratAdd_eq, hcast] at hwin
    exact hwin
  have hvval : ratSub (ratAdd t1 ((60 : Nat) : ℚ)) t101 = t1 + 60 - t101 := by
    rw [ratSub_eq, ratAdd_eq, hcast]
  have hvpos : 0 < ratSub (ratAdd t1 ((60 : Nat) : ℚ)) t101 := by
    rw [hvval]
    linarith
  have hmemL : ∀ x ∈ t1 :: (mid ++ [t101]), t1 ≤ x := by
    intro x hx
    rcases List.mem_cons.mp hx with h | h
    · exact le_of_eq h.symm
    · exact le_of_lt ((List.pairwise_cons.mp hsort).1 x h)
  have hub : ∀ x ∈ t1 :: (mid ++ [t101]), x < t1 + 60 := by
    intro x hx
    rcases List.mem_cons.mp hx with h | h
    · subst h
      linarith
    · rcases List.mem_append.mp h with hm | hm
      · have h1 : x < t101 :=
          (List.pairwise_append.mp ((List.pairwise_cons.mp hsort).2)).2.2 x hm t101
            (List.mem_singleton.mpr rfl)
        linarith
      · rw [List.mem_singleton.mp hm]
        exact hwin'
  have hnoexp : ∀ t ∈ t1 :: (mid ++ [t101]), ∀ s ∈ t1 :: (mid ++ [t101]),
      ¬((0:ℚ) ≤ s ∧ s ≤ ratSub t ((60 : Nat) : ℚ)) := by
    intro t ht s hs hcon
    rw [ratSub_eq, hcast] at hcon
    have h1 := hmemL s hs
    have h2 := hub t ht
    have h3 := hcon.2
    linarith
  have hsubL : ∀ x ∈ t1 :: mid, x ∈ t1 :: (mid ++ [t101]) := by
    intro x hx
    rcases List.mem_cons.mp hx with h | h
    · exact h ▸ List.mem_cons_self _ _
    · exact List.mem_cons_of_mem _ (List.mem_append_left _ h)
  have hsortL : (([] : List ℚ) ++ (t1 :: mid)).Pairwise (· < ·) := by
    rw [List.nil_append]
    exact List.Pairwise.sublist
      (List.Sublist.cons₂ t1 (List.sublist_append_left mid [t101])) hsort
  have hfirst := runRequests_all_allowed 100 60 (t1 :: mid) [] none hsortL
      (fun t ht s hs => hnoexp t (hsubL t ht) s (hsubL s (by simpa using hs)))
      (by simp [hmid])
  rw [List.nil_append] at hfirst
  have hmin : oldestScore (t1 :: mid) = some t1 :=
    oldestScore_sorted t1 mid
      (fun y hy => le_of_lt ((List.pairwise_cons.mp hsort).1 y (List.mem_append_left _ hy)))
  have hkeep2 : zremrangebyscore (t1 :: mid) 0 (ratSub t101 ((60 : Nat) : ℚ)) = t1 :: mid :=
    zrem_keeps _ _ _
      (fun s hs => hnoexp t101
        (List.mem_cons_of_mem _ (List.mem_append_right _ (List.mem_singleton.mpr rfl)))
        s (hsubL s hs))
  have hlen2 : (t1 :: mid).length = 100 := by
    simp [hmid]
  have hcheck2 : check_rate_limit ⟨t1 :: mid, some 60⟩ t101 100 60 =
      (⟨t1 :: mid, some 60⟩,
       .rejected (pyInt (ratSub (ratAdd t1 ((60 : Nat) : ℚ)) t101))) := by
    simp only [check_rate_limit, hkeep2, hmin, hlen2, le_refl, if_true]
  refine ⟨?_, ?_, ?_⟩
  · have hsplit : (t1 :: (mid ++ [t101])) = (t1 :: mid) ++ [t101] := by
      simp
    rw [hsplit, runRequests_append, hfirst]
    simp only [runRequests, hcheck2, hlen2, List.isEmpty_cons, Bool.false_eq_true,
      if_false]
  · rw [pyInt]
    apply Int.tdiv_nonneg
    · exact Rat.num_nonneg.mpr (le_of_lt hvpos)
    · exact Int.natCast_nonneg _
  · intro h1
    have hfl : pyInt (ratSub (ratAdd t1 ((60 : Nat) : ℚ)) t101) =
        ⌊ratSub (ratAdd t1 ((60 : Nat) : ℚ)) t101⌋ := by
      rw [pyInt, Int.tdiv_eq_ediv (Rat.num_nonneg.mpr (le_of_lt hvpos)) (Int.natCast_nonneg _),
        Rat.floor_def]
    rw [hfl]
    have h2 : (1 : Int) ≤ ⌊ratSub (ratAdd t1 ((60 : Nat) : ℚ)) t101⌋ :=
      Int.le_floor.mpr (by exact_mod_cast h1)
    omega

/-- Witness for `c8_sliding_window` at 101 concrete request times
inside one window: times 0, 1/2, 1, ..., 99/2, then 199/4. -/
theorem c8_sliding_window_witness :
    runRequests ⟨[], none⟩
        ((0 : ℚ) :: (((List.range 99).map (fun i => mkRat ((i : Int) + 1) 2)) ++
          [mkRat 199 4])) 100 60 =
      (⟨(0 : ℚ) :: ((List.range 99).map (fun i => mkRat ((i : Int) + 1) 2)), some 60⟩,
       List.replicate 100 .allowed ++
         [.rejected (pyInt (ratSub (ratAdd 0 ((60 : Nat) : ℚ)) (mkRat 199 4)))]) ∧
    0 < pyInt (ratSub (ratAdd 0 ((60 : Nat) : ℚ)) (mkRat 199 4)) :=
  ⟨(c8_sliding_window 0 ((List.range 99).map (fun i => mkRat ((i : Int) + 1) 2)) (mkRat 199 4)
      (by decide) (by decide) (by decide) (by decide)).1,
   (c8_sliding_window 0 ((List.range 99).map (fun i => mkRat ((i : Int) + 1) 2)) (mkRat 199 4)
      (by decide) (by decide) (by decide) (by decide)).2.2 (by decide)⟩

theorem dictSet_mem {α : Type} (m : List (String × α)) (k : String) (v : α) :
    ∀ q ∈ dictSet m k v, q ∈ m ∨ q = (k, v) := by
  intro q hq
  unfold dictSet at hq
  by_cases h : m.any (fun p => p.1 == k)
  · rw [if_pos h] at hq
    rcases List.mem_map.mp hq with ⟨p, hp, hpq⟩
    by_cases hk : (p.1 == k) = true
    · right
      rw [if_pos hk] at hpq
      exact hpq.symm
    · left
      rw [if_neg hk] at hpq
      exact hpq ▸ hp
  · rw [if_neg h] at hq
    rcases List.mem_append.mp hq with h1 | h1
    · exact Or.inl h1
    · exact Or.inr (List.mem_singleton.mp h1)

theorem dictDel_mem {α : Type} (m : List (String × α)) (k : String) :
    ∀ q ∈ dictDel m k, q ∈ m := by
  intro q hq
  exact List.mem_of_mem_filter hq

theorem dictGet_mem {α : Type} (m : List (String × α)) (k : String) (v : α)
    (h : dictGet m k = some v) : (k, v) ∈ m := by
  unfold dictGet at h
  cases hf : m.find? (fun p => p.1 == k) with
  | none => rw [hf] at h; cases h
  | some p =>
    rw [hf] at h
    have hp2 : p.2 = v := by
      injection h
    have hp := List.mem_of_find?_eq_some hf
    have hk : p.1 = k := by
      have := List.find?_some hf
      exact eq_of_beq this
    have : p = (k, v) := by
      cases p
      simp only [Prod.mk.injEq]
      exact ⟨hk, hp2⟩
    exact this ▸ hp

theorem any_key_dictSet {α : Type} (m : List (String × α)) (k : String) (v : α) :
    (dictSet m k v).any (fun p => p.1 == k) = true := by
  unfold dictSet
  by_cases h : m.any (fun p => p.1 == k)
  · rw [if_pos h]
    rw [List.any_eq_true] at h ⊢
    rcases h with ⟨p, hp, hpk⟩
    exact ⟨(k, v), List.mem_map.mpr ⟨p, hp, by rw [if_pos hpk]⟩, by simp⟩
  · rw [if_neg h]
    rw [List.any_eq_true]
    exact ⟨(k, v), List.mem_append_right _ (List.mem_singleton.mpr rfl), by simp⟩

theorem cmWF_connect (st : CMState) (u : String) (w : Nat) (h : cmWF st) :
    cmWF (cmConnect st u w) := by
  obtain ⟨h1, h2, h3⟩ := h
  simp only [cmConnect]
  refine ⟨?_, h2, h3⟩
  intro p hp
  rcases dictSet_mem _ _ _ p hp with hh | hh
  · exact h1 p hh
  · rw [hh]
    simp

theorem cmWF_join (st : CMState) (u t : String) (h : cmWF st) :
    cmWF (join_task_view st u t) := by
  obtain ⟨h1, h2, h3⟩ := h
  have hcur : ((dictGet st.task_viewers t).getD []).Nodup := by
    cases hg : dictGet st.task_viewers t with
    | none => simp
    | some vs =>
      have := dictGet_mem _ _ _ hg
      simpa using h3 (t, vs) this
  simp only [join_task_view]
  refine ⟨h1, ?_, ?_⟩
  · intro p hp
    rcases dictSet_mem _ _ _ p hp with hh | hh
    · exact h2 p hh
    · rw [hh]
      by_cases hu : u ∈ (dictGet st.task_viewers t).getD []
      · rw [if_pos hu]
        exact List.ne_nil_of_mem hu
      · rw [if_neg hu]
        simp
  · intro p hp
    rcases dictSet_mem _ _ _ p hp with hh | hh
    · exact h3 p hh
    · rw [hh]
      by_cases hu : u ∈ (dictGet st.task_viewers t).getD []
      · rw [if_pos hu]
        exact hcur
      · rw [if_neg hu]
        simp [List.nodup_append, hcur, hu]

theorem cmWF_disconnect (st : CMState) (w : Nat) (u : String) (h : cmWF st) :
    cmWF (cmDisconnect st w u) := by
  obtain ⟨h1, h2, h3⟩ := h
  cases hg : dictGet st.active_connections u with
  | none =>
    simp only [cmDisconnect, hg]
    exact ⟨h1, h2, h3⟩
  | some l =>
    simp only [cmDisconnect, hg]
    by_cases he : (if w ∈ l then l.erase w else l).isEmpty
    · rw [if_pos he]
      refine ⟨?_, ?_, ?_⟩
      · intro p hp
        exact h1 p (dictDel_mem _ _ p hp)
      · intro p hp
        rcases List.mem_filterMap.mp hp with ⟨q, hq, hfq⟩
        by_cases hu : u ∈ q.2
        · rw [if_pos hu] at hfq
          by_cases hemp : (q.2.erase u).isEmpty
          · rw [if_pos hemp] at hfq
            cases hfq
          · rw [if_neg hemp] at hfq
            injection hfq with hfq
            rw [← hfq]
            intro hc
            exact hemp (List.isEmpty_iff.mpr hc)
        · rw [if_neg hu] at hfq
          injection hfq with hfq
          exact hfq ▸ h2 q hq
      · intro p hp
        rcases List.mem_filterMap.mp hp with ⟨q, hq, hfq⟩
        by_cases hu : u ∈ q.2
        · rw [if_pos hu] at hfq
          by_cases hemp : (q.2.erase u).isEmpty
          · rw [if_pos hemp] at hfq
            cases hfq
          · rw [if_neg hemp] at hfq
            injection hfq with hfq
            rw [← hfq]
            exact (h3 q hq).erase u
        · rw [if_neg hu] at hfq
          injection hfq with hfq
          exact hfq ▸ h3 q hq
    · rw [if_neg he]
      refine ⟨?_, h2, h3⟩
      intro p hp
      rcases dictSet_mem _ _ _ p hp with hh | hh
      · exact h1 p hh
      · rw [hh]
        intro hc
        exact he (List.isEmpty_iff.mpr hc)

theorem cmWF_leave (st : CMState) (u t : String) (h : cmWF st) :
    cmWF (leave_task_view st u t) := by
  obtain ⟨h1, h2, h3⟩ := h
  cases hg : dictGet st.task_viewers t with
  | none =>
    simp only [leave_task_view, hg]
    exact ⟨h1, h2, h3⟩
  | some vs =>
    have hvs : (t, vs) ∈ st.task_viewers := dictGet_mem _ _ _ hg
    simp only [leave_task_view, hg]
    by_cases hu : u ∈ vs
    · rw [if_pos hu]
      by_cases hemp : (vs.erase u).isEmpty
      · rw [if_pos hemp]
        refine ⟨h1, ?_, ?_⟩
        · intro p hp
          exact h2 p (dictDel_mem _ _ p hp)
        · intro p hp
          exact h3 p (dictDel_mem _ _ p hp)
      · rw [if_neg hemp]
        refine ⟨h1, ?_, ?_⟩
        · intro p hp
          rcases dictSet_mem _ _ _ p hp with hh | hh
          · exact h2 p hh
          · rw [hh]
            intro hc
            exact hemp (List.isEmpty_iff.mpr hc)
        · intro p hp
          rcases dictSet_mem _ _ _ p hp with hh | hh
          · exact h3 p hh
          · rw [hh]
            exact (h3 (t, vs) hvs).erase u
    · rw [if_neg hu]
      exact ⟨h1, h2, h3⟩

theorem cmWF_applyOp (st : CMState) (op : CMOp) (h : cmWF st) : cmWF (applyOp st op) := by
  cases op with
  | connect u w => exact cmWF_connect st u w h
  | disconnect w u => exact cmWF_disconnect st w u h
  | joinTaskView u t => exact cmWF_join st u t h
  | leaveTaskView u t => exact cmWF_leave st u t h

theorem cmWF_foldl (ops : List CMOp) : ∀ st, cmWF st → cmWF (ops.foldl applyOp st) := by
  induction ops with
  | nil => intro st h; exact h
  | cons op rest ih => intro st h; exact ih _ (cmWF_applyOp st op h)

theorem cmWF_runOps (ops : List CMOp) : cmWF (runOps ops) := by
  refine cmWF_foldl ops initCM ⟨?_, ?_, ?_⟩ <;> simp [initCM]

theorem cmWF_nonempty (st : CMState) (h : cmWF st) : cmNonempty st = true := by
  obtain ⟨h1, h2, _⟩ := h
  unfold cmNonempty
  rw [Bool.and_eq_true, List.all_eq_true, List.all_eq_true]
  constructor
  · intro p hp
    simpa [List.isEmpty_iff] using h1 p hp
  · intro p hp
    simpa [List.isEmpty_iff] using h2 p hp

theorem disconnect_last_purges (st : CMState) (w : Nat) (u : String)
    (hwf : cmWF st)
    (hon : is_user_online st u = true)
    (hoff : is_user_online (cmDisconnect st w u) u = false) :
    ∀ p ∈ (cmDisconnect st w u).task_viewers, u ∉ p.2 := by
  obtain ⟨h1, h2, h3⟩ := hwf
  intro p hp hup
  cases hg : dictGet st.active_connections u with
  | none =>
    simp only [cmDisconnect, hg] at hoff
    rw [hon] at hoff
    cases hoff
  | some l =>
    simp only [cmDisconnect, hg] at hp hoff
    by_cases he : (if w ∈ l then l.erase w else l).isEmpty
    · rw [if_pos he] at hp
      rcases List.mem_filterMap.mp hp with ⟨q, hq, hfq⟩
      by_cases hu : u ∈ q.2
      · rw [if_pos hu] at hfq
        by_cases hemp : (q.2.erase u).isEmpty
        · rw [if_pos hemp] at hfq
          cases hfq
        · rw [if_neg hemp] at hfq
          injection hfq with hfq
          rw [← hfq] at hup
          have := ((h3 q hq).mem_erase_iff).mp hup
          exact this.1 rfl
      · rw [if_neg hu] at hfq
        injection hfq with hfq
        exact hu (hfq ▸ hup)
    · rw [if_neg he] at hoff
      have : is_user_online
          { st with active_connections :=
              dictSet st.active_connections u (if w ∈ l then l.erase w else l) } u = true := by
        unfold is_user_online
        exact any_key_dictSet _ _ _
      rw [this] at hoff
      cases hoff

/-- Claim C10: after every sequence of connect, disconnect,
join_task_view and leave_task_view operations on a fresh connection
manager, every user id present in the active-connections map is bound
to a nonempty channel list and every task id present in the
task-viewers map is bound to a nonempty viewer set; and whenever a
disconnect removes a user's last channel (online before, offline
after), the user is absent from every remaining task-viewer set. -/
theorem c10_connection_manager_invariant :
    (∀ ops : List CMOp, cmNonempty (runOps ops) = true) ∧
    (∀ (ops : List CMOp) (w : Nat) (u : String),
      is_user_online (runOps ops) u = true →
      is_user_online (cmDisconnect (runOps ops) w u) u = false →
      ∀ p ∈ (cmDisconnect (runOps ops) w u).task_viewers, u ∉ p.2) :=
  ⟨fun ops => cmWF_nonempty _ (cmWF_runOps ops),
   fun ops w u hon hoff => disconnect_last_purges _ w u (cmWF_runOps ops) hon hoff⟩

/-- Witness for `c10_connection_manager_invariant`: two users connect,
both view task t1, then user u1's only channel disconnects; the
invariant holds and u1 is purged from t1's remaining viewer set. -/
theorem c10_connection_manager_invariant_witness :
    cmNonempty (runOps [CMOp.connect "u1" 1, CMOp.connect "u2" 2,
      CMOp.joinTaskView "u1" "t1", CMOp.joinTaskView "u2" "t1"]) = true ∧
    is_user_online (runOps [CMOp.connect "u1" 1, CMOp.connect "u2" 2,
      CMOp.joinTaskView "u1" "t1", CMOp.joinTaskView "u2" "t1"]) "u1" = true ∧
    is_user_online (cmDisconnect (runOps [CMOp.connect "u1" 1, CMOp.connect "u2" 2,
      CMOp.joinTaskView "u1" "t1", CMOp.joinTaskView "u2" "t1"]) 1 "u1") "u1" = false ∧
    ("u1" : String) ∉ (("t1", ["u2"]) : String × List String).2 :=
  ⟨c10_connection_manager_invariant.1 [CMOp.connect "u1" 1, CMOp.connect "u2" 2,
      CMOp.joinTaskView "u1" "t1", CMOp.joinTaskView "u2" "t1"],
   by decide, by decide,
   c10_connection_manager_invariant.2 [CMOp.connect "u1" 1, CMOp.connect "u2" 2,
      CMOp.joinTaskView "u1" "t1", CMOp.joinTaskView "u2" "t1"] 1 "u1"
     (by decide) (by decide) ("t1", ["u2"]) (by decide)⟩
